import Mathlib

/-!
# Verification of the KML-Viewer parsing/geometry core

Shallow embedding of the core logic of `src/components/KMLViewer.js`
(`isValidCoordinate`, `calculateLength`, `parseCoordinates`,
`processKMLData`, `handleFileUpload`) and proofs of the frozen claims.

Modelling conventions:
* JavaScript numbers are modelled by `JSNum`: `NaN`, the two infinities, and
  finite values carried as exact rationals.  IEEE-754 double rounding and
  overflow-to-infinity of literals such as `"1e999"` are outside the model
  (floating-point is not embedded); `parseFloat` is modelled with exact
  rational values, which is faithful for the NaN/Infinity/finite distinction
  the code's validity check inspects.
* For the metric part (`calculateLength`) a coordinate component is
  `Option ℝ`: `none` models `NaN`, `some x` a (finite) real.  Infinite
  components, which can only reach `calculateLength` through a literal
  `Infinity` longitude/latitude string and then poison the arithmetic with
  IEEE NaNs, are outside the real-valued trigonometric model.
* `Number.prototype.toFixed(2)` is modelled exactly per ECMA-262: the integer
  `n` closest to `100·x` (ties to the larger `n`), after splitting off the
  sign, rendered with two fractional digits.
-/

namespace KML

/-- A JavaScript number as far as the viewer's logic observes it:
`NaN`, `Infinity`, `-Infinity`, or a finite value (exact rational;
binary64 rounding is outside the model). -/
inductive JSNum where
  | nan : JSNum
  | inf : JSNum
  | negInf : JSNum
  | num : ℚ → JSNum
deriving DecidableEq, Repr

/-- `isNaN(x)` for a `JSNum`. -/
def JSNum.isNaNb : JSNum → Bool
  | .nan => true
  | _ => false

/-- `Number.isFinite(x)` for a `JSNum` (used to state the spec's
"parses as a finite number" wording). -/
def JSNum.isFiniteb : JSNum → Bool
  | .num _ => true
  | _ => false

/-! ## Character utilities for the `parseFloat` model -/

/-- The whitespace characters recognised by `\s`, `String.prototype.trim`
and `parseFloat`'s leading-whitespace skip (ASCII portion; exotic Unicode
space characters are omitted, no claim depends on them). -/
def iswsJS (c : Char) : Bool :=
  c = ' ' || c = '\t' || c = '\n' || c = '\r' || c = '\x0b' || c = '\x0c'

/-- ASCII decimal digit test. -/
def isDigitChar (c : Char) : Bool :=
  48 ≤ c.toNat && c.toNat ≤ 57

/-- Numeric value of a digit character. -/
def digitValN (c : Char) : ℕ := c.toNat - 48

/-- The digit character for `d < 10`. -/
def digitChar (d : ℕ) : Char := Char.ofNat (48 + d)

/-- Split a character list into the maximal leading run of digits and the
rest (the greedy `Digits` production of ECMA's `StrDecimalLiteral`). -/
def takeDigits : List Char → List Char × List Char
  | [] => ([], [])
  | c :: cs =>
    if isDigitChar c then
      let p := takeDigits cs
      (c :: p.1, p.2)
    else ([], c :: cs)

/-- Value of a digit string read as a base-10 integer. -/
def intValC (cs : List Char) : ℕ :=
  cs.foldl (fun a c => 10 * a + digitValN c) 0

/-- Value of a digit string read as a base-10 fraction (digits after the
decimal point). -/
def fracValC (cs : List Char) : ℚ :=
  (intValC cs : ℚ) / 10 ^ cs.length

/-- The mantissa part of ECMA's `StrDecimalLiteral`:
`Digits [. Digits] | . Digits`, longest valid prefix; returns the value and
the unconsumed rest, or `none` when no prefix is a valid mantissa. -/
def parseMantissa (cs : List Char) : Option (ℚ × List Char) :=
  let ip := takeDigits cs
  if ip.1.isEmpty then
    match ip.2 with
    | c :: r2 =>
      if c = '.' then
        let fp := takeDigits r2
        if fp.1.isEmpty then none
        else some (fracValC fp.1, fp.2)
      else none
    | [] => none
  else
    match ip.2 with
    | c :: r2 =>
      if c = '.' then
        let fp := takeDigits r2
        some ((intValC ip.1 : ℚ) + fracValC fp.1, fp.2)
      else some ((intValC ip.1 : ℚ), ip.2)
    | [] => some ((intValC ip.1 : ℚ), [])

/-- Multiplier contributed by an exponent whose digit part starts `cs`
(`neg` records a leading `-`). An empty digit part means the exponent
production does not match and contributes factor 1. -/
def expPow (cs : List Char) (neg : Bool) : ℚ :=
  let ds := (takeDigits cs).1
  if ds.isEmpty then 1
  else if neg then 1 / 10 ^ intValC ds else 10 ^ intValC ds

/-- Multiplier contributed by an optional `ExponentPart` at `cs`. -/
def parseExpQ (cs : List Char) : ℚ :=
  match cs with
  | [] => 1
  | c :: r =>
    if c = 'e' ∨ c = 'E' then
      match r with
      | [] => 1
      | d :: r2 =>
        if d = '+' then expPow r2 false
        else if d = '-' then expPow r2 true
        else expPow (d :: r2) false
    else 1

/-- Boolean prefix test on character lists. -/
def beginsWith : List Char → List Char → Bool
  | [], _ => true
  | _ :: _, [] => false
  | a :: as, b :: bs => a == b && beginsWith as bs

/-- Body of `parseFloat` after whitespace and an optional sign have been
consumed: the literal `Infinity` or a decimal mantissa with optional
exponent; anything else is `NaN`. -/
def parseSignedJS (cs : List Char) (neg : Bool) : JSNum :=
  if beginsWith "Infinity".data cs then (if neg then .negInf else .inf)
  else
    match parseMantissa cs with
    | some p => let v := p.1 * parseExpQ p.2; .num (if neg then -v else v)
    | none => .nan

/-- ECMAScript `parseFloat`, modelled with exact rational values:
skip leading whitespace, optional sign, then the longest prefix matching
`StrDecimalLiteral`; no valid prefix yields `NaN`.  (Rounding of the exact
decimal value to binary64, and overflow to `Infinity`, are outside the
model.) -/
def parseFloatJS (s : String) : JSNum :=
  match s.data.dropWhile iswsJS with
  | [] => .nan
  | c :: r =>
    if c = '+' then parseSignedJS r false
    else if c = '-' then parseSignedJS r true
    else parseSignedJS (c :: r) false

/-! ## `parseCoordinates` (src/components/KMLViewer.js lines 141-149) -/

/-- A parsed coordinate as built by `parseCoordinates`:
the JS array `[parseFloat(lat), parseFloat(lng)]`, i.e. latitude first. -/
abbrev Coord2 := JSNum × JSNum

/-- `isValidCoordinate` (lines 31-40) applied to a two-element numeric
array.  `Array.isArray`, `length === 2` and the two `typeof === "number"`
checks hold structurally for `Coord2` (note `typeof NaN === "number"` in
JS, so they hold for `NaN` components as well); the residual content is
the two `!isNaN` tests. -/
def isValidCoordinate (p : Coord2) : Bool :=
  !p.1.isNaNb && !p.2.isNaNb

/-- `String.prototype.trim` on a character list. -/
def trimJS (cs : List Char) : List Char :=
  ((cs.dropWhile iswsJS).reverse.dropWhile iswsJS).reverse

/-- Accumulator worker for `wordsWs`: `acc` holds the reversed current
word. -/
def wordsWsAux : List Char → List Char → List (List Char)
  | [], acc => if acc.isEmpty then [] else [acc.reverse]
  | c :: cs, acc =>
    if iswsJS c then
      if acc.isEmpty then wordsWsAux cs [] else acc.reverse :: wordsWsAux cs []
    else wordsWsAux cs (c :: acc)

/-- `split(/\s+/)` on a string with no leading or trailing whitespace:
the maximal whitespace-free words. -/
def wordsWs (cs : List Char) : List (List Char) := wordsWsAux cs []

/-- `String.prototype.split(/\s+/)`: on the empty string JS returns
`[""]`, otherwise (for trimmed input) the whitespace-separated words. -/
def splitWsJS (cs : List Char) : List (List Char) :=
  if cs.isEmpty then [[]] else wordsWs cs

/-- The per-token body of `parseCoordinates`:
`coord.split(",")`, the `!lng || !lat` falsiness guard (empty or missing
fields), `[parseFloat(lat), parseFloat(lng)]` (KML order swapped), and the
`isValidCoordinate` filter to `null`. -/
def parseTok (tok : List Char) : Option Coord2 :=
  match tok.splitOn ',' with
  | lng :: lat :: _ =>
    if lng.isEmpty || lat.isEmpty then none
    else
      let p : Coord2 := (parseFloatJS ⟨lat⟩, parseFloatJS ⟨lng⟩)
      if isValidCoordinate p then some p else none
  | _ => none

/-- `parseCoordinates` (lines 141-149).  The argument is `Option String`
because the call sites pass `...?.coordinates?.[0]`, which may be
`undefined`; both `undefined` and `""` are falsy and give `[]`.  The body
is `trim`, `split(/\s+/)`, `map` of the tuple parser and the
`filter(coord => coord !== null)`. -/
def parseCoordinates : Option String → List Coord2
  | none => []
  | some s =>
    if s.data.isEmpty then []
    else ((splitWsJS (trimJS s.data)).map parseTok).reduceOption

/-- The tuple-acceptance function of the (amended) C2 claim: a token is
accepted iff its longitude and latitude fields are both present and
non-empty and both parse to a number that is not `NaN`; an accepted token
contributes the pair with fields swapped to (latitude, longitude). -/
def specAccept (tok : List Char) : Option Coord2 :=
  match tok.splitOn ',' with
  | lng :: lat :: _ =>
    if ¬lng.isEmpty ∧ ¬lat.isEmpty ∧
        (parseFloatJS ⟨lng⟩).isNaNb = false ∧ (parseFloatJS ⟨lat⟩).isNaNb = false then
      some (parseFloatJS ⟨lat⟩, parseFloatJS ⟨lng⟩)
    else none
  | _ => none

/-! ## Geometry metrics: `calculateLength` (src/components/KMLViewer.js lines 43-66) -/

/-- A coordinate as consumed by `calculateLength`: the array `[lat, lon]`,
each component either `NaN` (`none`) or a finite real (`some x`).
IEEE infinities are outside the real-valued trigonometric model. -/
abbrev CoordM := Option ℝ × Option ℝ

/-- `isValidCoordinate` (lines 31-40) at the metric representation: the
structural array checks hold by typing, the `!isNaN` tests become
`isSome`. -/
def isValidCoordinateM (c : CoordM) : Bool :=
  c.1.isSome && c.2.isSome

open Classical in
/-- `Math.atan2 y x` on the reals (IEEE signed zeros are not modelled:
`x = 0` behaves as `+0`). -/
noncomputable def atan2 (y x : ℝ) : ℝ :=
  if 0 < x then Real.arctan (y / x)
  else if x = 0 then (if 0 < y then Real.pi / 2 else if y < 0 then -(Real.pi / 2) else 0)
  else if 0 ≤ y then Real.arctan (y / x) + Real.pi else Real.arctan (y / x) - Real.pi

/-- The intermediate `a` of the haversine computation (lines 56-61):
`sin(dLat/2)·sin(dLat/2) + cos(lat1·π/180)·cos(lat2·π/180)·sin(dLon/2)·sin(dLon/2)`
with `dLat = (lat2−lat1)·π/180`, `dLon = (lon2−lon1)·π/180`. -/
noncomputable def havA (lat1 lon1 lat2 lon2 : ℝ) : ℝ :=
  Real.sin ((lat2 - lat1) * Real.pi / 180 / 2) * Real.sin ((lat2 - lat1) * Real.pi / 180 / 2) +
    Real.cos (lat1 * Real.pi / 180) * Real.cos (lat2 * Real.pi / 180) *
      (Real.sin ((lon2 - lon1) * Real.pi / 180 / 2) * Real.sin ((lon2 - lon1) * Real.pi / 180 / 2))

/-- One haversine segment (lines 53-63): `R·c` with `R = 6371` and
`c = 2·atan2(√a, √(1−a))`. -/
noncomputable def hav (lat1 lon1 lat2 lon2 : ℝ) : ℝ :=
  6371 * (2 * atan2 (Real.sqrt (havA lat1 lon1 lat2 lon2))
    (Real.sqrt (1 - havA lat1 lon1 lat2 lon2)))

/-- The body of one loop iteration: destructure `[lat1, lon1]`, `[lat2, lon2]`,
`continue` (contribute nothing) unless both pass `isValidCoordinate`,
otherwise add the haversine segment. -/
noncomputable def segLen : CoordM → CoordM → ℝ
  | (some lat1, some lon1), (some lat2, some lon2) => hav lat1 lon1 lat2 lon2
  | _, _ => 0

/-- The `for (let i = 1; ...)` accumulation: `prev` is `coords[i-1]`. -/
noncomputable def lengthLoop : CoordM → List CoordM → ℝ
  | _, [] => 0
  | prev, c :: rest => segLen prev c + lengthLoop c rest

/-- The numeric total accumulated by `calculateLength`'s loop. -/
noncomputable def calcVal : List CoordM → ℝ
  | [] => 0
  | c :: rest => lengthLoop c rest

/-- A JavaScript value as returned by `calculateLength`: the number `0`
from the early return, or the string produced by `toFixed(2)`. -/
inductive JSValue where
  | num : ℝ → JSValue
  | str : String → JSValue

/-- Decimal digit characters of `n`, most significant first. -/
def natToChars (n : ℕ) : List Char :=
  if n < 10 then [digitChar n]
  else natToChars (n / 10) ++ [digitChar (n % 10)]
termination_by n
decreasing_by exact Nat.div_lt_self (by omega) (by omega)

/-- Two-digit rendering of `r < 100` (the fractional part of `toFixed(2)`). -/
def pad2 (r : ℕ) : List Char := [digitChar (r / 10), digitChar (r % 10)]

/-- Digits of `n` with a decimal point before the last two: the characters
of `toFixed(2)` for the nonnegative value `n / 100`. -/
def fmtFixed2 (n : ℕ) : List Char := natToChars (n / 100) ++ '.' :: pad2 (n % 100)

/-- The integer `n` selected by ECMA-262 `toFixed(2)` for a nonnegative
argument: `n/100` closest to `x`, ties to the larger `n`. -/
noncomputable def round2Z (x : ℝ) : ℤ := ⌊x * 100 + 1 / 2⌋

/-- The numeric value `n/100` that `toFixed(2)` rounds a nonnegative
argument to. -/
noncomputable def round2R (x : ℝ) : ℝ := ((round2Z x : ℤ) : ℝ) / 100

open Classical in
/-- `Number.prototype.toFixed(2)` per ECMA-262: split off the sign, round
to the closest hundredth (ties up), render with exactly two fractional
digits.  (The exponential form for `|x| ≥ 10²¹` is outside the model.) -/
noncomputable def toFixed2Str (x : ℝ) : String :=
  if x < 0 then ⟨'-' :: fmtFixed2 (round2Z (-x)).toNat⟩
  else ⟨fmtFixed2 (round2Z x).toNat⟩

/-- `calculateLength` (lines 43-66): the JS number `0` for fewer than two
coordinates (the early `return 0`, also taken for a null/undefined
argument, which the list model does not represent), otherwise the
`toFixed(2)` string of the accumulated total. -/
noncomputable def calculateLength (coords : List CoordM) : JSValue :=
  if coords.length < 2 then .num 0
  else .str (toFixed2Str (calcVal coords))

/-- Claim-side segment contribution, following the claim's wording: a pair
with an endpoint failing validation contributes exactly zero, a valid pair
contributes the haversine distance. -/
noncomputable def segSpec (p q : CoordM) : ℝ :=
  if isValidCoordinateM p && isValidCoordinateM q then
    hav (p.1.getD 0) (p.2.getD 0) (q.1.getD 0) (q.2.getD 0)
  else 0

/-- Claim-side total: the sum over each consecutive pair of coordinates of
the (validity-guarded) haversine distance. -/
noncomputable def sumPairs : List CoordM → ℝ
  | a :: b :: t => segSpec a b + sumPairs (b :: t)
  | _ => 0

/-! ## The MultiLineString length combination (lines 122-131) -/

/-- `parseFloat` applied to `calculateLength`'s result inside the
MultiLineString `reduce`.  A number argument is stringified and reparsed
by JS, the identity on the only number that occurs (`0`); a string
argument goes through the string parser.  A non-`num` parse cannot occur
on this path (the strings are `toFixed(2)` outputs) and is mapped to 0. -/
noncomputable def jsParseFloat : JSValue → ℝ
  | .num x => x
  | .str s =>
    match parseFloatJS s with
    | .num q => (q : ℝ)
    | _ => 0

/-- `multiCoords.reduce((acc, coords) => acc + parseFloat(calculateLength(coords)), 0)`. -/
noncomputable def multiTotal (mcs : List (List CoordM)) : ℝ :=
  mcs.foldl (fun acc cs => acc + jsParseFloat (calculateLength cs)) 0

/-- The combined MultiLineString length as the code computes it:
`totalLength.toFixed(2)` of the `reduce` above. -/
noncomputable def multiLineLengthStr (mcs : List (List CoordM)) : String :=
  toFixed2Str (multiTotal mcs)

/-- The C5 claim's variant: retain exact numeric sub-totals and round only
the final sum. -/
noncomputable def multiLineLengthExact (mcs : List (List CoordM)) : String :=
  toFixed2Str ((mcs.map calcVal).sum)

/-- The amended variant: retain the *rounded* numeric sub-totals (each
sub-line rounded to 2 decimals as a number, no string round-trip) and
format the final sum. -/
noncomputable def multiLineLengthRounded (mcs : List (List CoordM)) : String :=
  toFixed2Str ((mcs.map (fun cs => round2R (calcVal cs))).sum)

/-! ## `processKMLData` (src/components/KMLViewer.js lines 93-139) -/

/-- A placemark as delivered by xml2js and consulted by `processKMLData`.
xml2js wraps children in arrays; only the paths the code reads are kept:
* `point`/`lineString`: tag presence, and `…[0]?.coordinates?.[0]`;
* `polygon`: tag presence, and
  `…[0]?.outerBoundaryIs?.[0]?.LinearRing?.[0]?.coordinates?.[0]`
  flattened to the optional coordinates string;
* `multiGeometry`: `MultiGeometry` presence, then
  `MultiGeometry[0]?.LineString` presence, then per sub-line
  `line?.coordinates?.[0]`;
* `name`: `placemark.name?.[0]`. -/
structure Placemark where
  name : Option String
  point : Option (Option String)
  lineString : Option (Option String)
  polygon : Option (Option String)
  multiGeometry : Option (Option (List (Option String)))
deriving DecidableEq, Repr

/-- The summary object
`{ Point: 0, LineString: 0, Polygon: 0, MultiLineString: 0 }`:
exactly four keys, one per geometry kind. -/
structure SummaryCounts where
  point : ℕ
  lineString : ℕ
  polygon : ℕ
  multiLineString : ℕ
deriving DecidableEq, Repr

/-- An element pushed onto `parsedElements`: the `type` tag of the JS
object is the constructor, the remaining fields are `coords`, the computed
`length` where the code stores one, and `name`. -/
inductive GeomRecord where
  | point (coords : List Coord2) (name : String)
  | lineString (coords : List Coord2) (length : JSValue) (name : String)
  | polygon (coords : List Coord2) (name : String)
  | multiLineString (coords : List (List Coord2)) (length : String) (name : String)

/-- The geometry kinds, for classifying records. -/
inductive GKind where
  | point
  | lineString
  | polygon
  | multiLineString
deriving DecidableEq, Repr

/-- The `type` field of a record. -/
def GeomRecord.kind : GeomRecord → GKind
  | .point _ _ => .point
  | .lineString _ _ _ => .lineString
  | .polygon _ _ => .polygon
  | .multiLineString _ _ _ => .multiLineString

/-- A parsed coordinate converted to the metric representation consumed by
`calculateLength`: a `NaN` component becomes `none`, a finite component
its real value.  (An infinite component, which JS would propagate as NaN
through the trigonometry, is outside the real model and also maps to
`none`; no claim depends on the stored length of such a record.) -/
noncomputable def jsToOpt : JSNum → Option ℝ
  | .num q => some (q : ℝ)
  | _ => none

/-- Componentwise `jsToOpt`. -/
noncomputable def toMetric (p : Coord2) : CoordM := (jsToOpt p.1, jsToOpt p.2)

/-- `placemark.name?.[0] || dflt`: a missing name array or an empty name
string is falsy and falls back to the geometry-kind label. -/
def jsNameOr (name : Option String) (dflt : String) : String :=
  match name with
  | some n => if n.isEmpty then dflt else n
  | none => dflt

/-- State threaded through the `forEach`: the counts object and
`parsedElements`. -/
abbrev ProcState := SummaryCounts × List GeomRecord

/-- The `if (placemark.Point)` branch (lines 98-104): count the tag, then
create a record only when at least one coordinate parsed. -/
noncomputable def stepPoint (pm : Placemark) (st : ProcState) : ProcState :=
  match pm.point with
  | none => st
  | some inner =>
    let coords := parseCoordinates inner
    ({ st.1 with point := st.1.point + 1 },
      st.2 ++ if 0 < coords.length then [.point coords (jsNameOr pm.name "Point")] else [])

/-- The `if (placemark.LineString)` branch (lines 106-112). -/
noncomputable def stepLine (pm : Placemark) (st : ProcState) : ProcState :=
  match pm.lineString with
  | none => st
  | some inner =>
    let coords := parseCoordinates inner
    ({ st.1 with lineString := st.1.lineString + 1 },
      st.2 ++ if 1 < coords.length then
        [.lineString coords (calculateLength (coords.map toMetric))
          (jsNameOr pm.name "LineString")]
      else [])

/-- The `if (placemark.Polygon)` branch (lines 114-120). -/
noncomputable def stepPoly (pm : Placemark) (st : ProcState) : ProcState :=
  match pm.polygon with
  | none => st
  | some inner =>
    let coords := parseCoordinates inner
    ({ st.1 with polygon := st.1.polygon + 1 },
      st.2 ++ if 2 < coords.length then [.polygon coords (jsNameOr pm.name "Polygon")] else [])

/-- The `if (placemark.MultiGeometry && placemark.MultiGeometry[0]?.LineString)`
branch (lines 122-132): parse each sub-line, keep those with more than one
point, and create a record when any survive. -/
noncomputable def stepMulti (pm : Placemark) (st : ProcState) : ProcState :=
  match pm.multiGeometry with
  | some (some lines) =>
    let multiCoords := (lines.map parseCoordinates).filter (fun cs => 1 < cs.length)
    ({ st.1 with multiLineString := st.1.multiLineString + 1 },
      st.2 ++ if 0 < multiCoords.length then
        [.multiLineString multiCoords
          (multiLineLengthStr (multiCoords.map (fun cs => cs.map toMetric)))
          (jsNameOr pm.name "MultiLineString")]
      else [])
  | _ => st

/-- One `forEach` iteration: the four independent branches in source
order. -/
noncomputable def processOne (st : ProcState) (pm : Placemark) : ProcState :=
  stepMulti pm (stepPoly pm (stepLine pm (stepPoint pm st)))

/-- `processKMLData` (lines 93-139): fold the placemark list starting from
the zero counts and the empty element list. -/
noncomputable def processKMLData (pms : List Placemark) : ProcState :=
  pms.foldl processOne (⟨0, 0, 0, 0⟩, [])

/-! ### Spec-side reformulation of `processKMLData` -/

/-- `Point` tag presence. -/
def tagPoint (pm : Placemark) : Bool := pm.point.isSome

/-- `LineString` tag presence. -/
def tagLine (pm : Placemark) : Bool := pm.lineString.isSome

/-- `Polygon` tag presence. -/
def tagPoly (pm : Placemark) : Bool := pm.polygon.isSome

/-- `MultiGeometry`-with-`LineString` presence. -/
def tagMulti (pm : Placemark) : Bool :=
  match pm.multiGeometry with
  | some (some _) => true
  | _ => false

/-- Tag presence for a given kind. -/
def tagOf : GKind → Placemark → Bool
  | .point => tagPoint
  | .lineString => tagLine
  | .polygon => tagPoly
  | .multiLineString => tagMulti

/-- Spec-side counts: each kind counts the placemarks carrying that tag,
independent of coordinate-parsing success. -/
def countsOfSpec (pms : List Placemark) : SummaryCounts :=
  ⟨pms.countP tagPoint, pms.countP tagLine, pms.countP tagPoly, pms.countP tagMulti⟩

/-- The count stored for a given kind. -/
def countOf : GKind → SummaryCounts → ℕ
  | .point => SummaryCounts.point
  | .lineString => SummaryCounts.lineString
  | .polygon => SummaryCounts.polygon
  | .multiLineString => SummaryCounts.multiLineString

/-- Spec-side Point record: created iff the tag is present and at least
one coordinate parsed. -/
noncomputable def pointRecs (pm : Placemark) : List GeomRecord :=
  match pm.point with
  | some inner =>
    let coords := parseCoordinates inner
    if 1 ≤ coords.length then [.point coords (jsNameOr pm.name "Point")] else []
  | none => []

/-- Spec-side LineString record: created iff the tag is present and at
least two coordinates parsed. -/
noncomputable def lineRecs (pm : Placemark) : List GeomRecord :=
  match pm.lineString with
  | some inner =>
    let coords := parseCoordinates inner
    if 2 ≤ coords.length then
      [.lineString coords (calculateLength (coords.map toMetric))
        (jsNameOr pm.name "LineString")]
    else []
  | none => []

/-- Spec-side Polygon record: created iff the tag is present and at least
three coordinates parsed. -/
noncomputable def polyRecs (pm : Placemark) : List GeomRecord :=
  match pm.polygon with
  | some inner =>
    let coords := parseCoordinates inner
    if 3 ≤ coords.length then [.polygon coords (jsNameOr pm.name "Polygon")] else []
  | none => []

/-- Spec-side MultiLineString record: created iff the tag pair is present
and at least one sub-line with at least two points survives the filter. -/
noncomputable def multiRecs (pm : Placemark) : List GeomRecord :=
  match pm.multiGeometry with
  | some (some lines) =>
    let multiCoords := (lines.map parseCoordinates).filter (fun cs => 1 < cs.length)
    if 1 ≤ multiCoords.length then
      [.multiLineString multiCoords
        (multiLineLengthStr (multiCoords.map (fun cs => cs.map toMetric)))
        (jsNameOr pm.name "MultiLineString")]
    else []
  | _ => []

/-- Spec-side records of one placemark: the branches fire independently,
in source order. -/
noncomputable def recordsOfSpec (pm : Placemark) : List GeomRecord :=
  pointRecs pm ++ lineRecs pm ++ polyRecs pm ++ multiRecs pm

/-! ## `handleFileUpload` (lines 74-91) -/

/-- The xml2js `Document` node: only the `Placemark` child array is
read. -/
structure KMLDocNode where
  placemark : Option (List Placemark)

/-- The xml2js `kml` root node: only the `Document` child array is read. -/
structure KMLRoot where
  document : Option (List KMLDocNode)

/-- A successful xml2js parse result. -/
structure KMLResult where
  kml : Option KMLRoot

/-- `result?.kml?.Document?.[0]?.Placemark` as an optional list. -/
def getPlacemarksOpt (r : KMLResult) : Option (List Placemark) :=
  ((r.kml.bind KMLRoot.document).bind List.head?).bind KMLDocNode.placemark

/-- `result?.kml?.Document?.[0]?.Placemark || []`: an absent path yields
the empty placemark list. -/
def getPlacemarks (r : KMLResult) : List Placemark :=
  (getPlacemarksOpt r).getD []

/-- The component state an upload touches: `elements`, `summary` and the
two display toggles. -/
structure ViewerState where
  elements : List GeomRecord
  summary : Option SummaryCounts
  showSummary : Bool
  showDetailed : Bool

/-- The `parseString` callback of `handleFileUpload` (lines 81-88),
applied to the XML parser's outcome (the parser itself is the external
xml2js library, so its outcome is the model's input): on a parse error,
`console.error` and `return` without touching state; on success, process
the placemarks and replace the state.  The second component is the console
log produced by the call. -/
noncomputable def handleParsedKML (st : ViewerState) (res : Except String KMLResult) :
    ViewerState × List String :=
  match res with
  | .error e => (st, ["Error parsing KML: " ++ e])
  | .ok r =>
    let p := processKMLData (getPlacemarks r)
    ({ elements := p.2, summary := some p.1, showSummary := false, showDetailed := false }, [])

/-- A concrete MultiLineString sub-line for claim C5: the equatorial
antipodal pair (0°, 0°) – (0°, 180°), whose exact haversine length is
`6371·π` km. -/
noncomputable def cexLine : List CoordM := [(some 0, some 0), (some 0, some 180)]

/-! ## Basic lemmas about the length computation -/

theorem segLen_eq_segSpec (p q : CoordM) : segLen p q = segSpec p q := by
  rcases p with ⟨p1, p2⟩
  rcases q with ⟨q1, q2⟩
  cases p1 <;> cases p2 <;> cases q1 <;> cases q2 <;>
    simp [segLen, segSpec, isValidCoordinateM]

theorem lengthLoop_eq (p : CoordM) (l : List CoordM) :
    lengthLoop p l = sumPairs (p :: l) := by
  induction l generalizing p with
  | nil => simp [lengthLoop, sumPairs]
  | cons c t ih => simp [lengthLoop, sumPairs, segLen_eq_segSpec, ih]

theorem calcVal_eq_sumPairs (l : List CoordM) : calcVal l = sumPairs l := by
  cases l with
  | nil => simp [calcVal, sumPairs]
  | cons c t => simp [calcVal, lengthLoop_eq]

theorem havA_comm (a b c d : ℝ) : havA c d a b = havA a b c d := by
  simp only [havA]
  have e1 : (a - c) * Real.pi / 180 / 2 = -((c - a) * Real.pi / 180 / 2) := by ring
  have e2 : (b - d) * Real.pi / 180 / 2 = -((d - b) * Real.pi / 180 / 2) := by ring
  rw [e1, e2]
  simp only [Real.sin_neg]
  ring

theorem hav_comm (a b c d : ℝ) : hav c d a b = hav a b c d := by
  rw [hav, hav, havA_comm]

theorem segSpec_comm (p q : CoordM) : segSpec q p = segSpec p q := by
  rcases p with ⟨p1, p2⟩
  rcases q with ⟨q1, q2⟩
  cases p1 <;> cases p2 <;> cases q1 <;> cases q2 <;>
    simp [segSpec, isValidCoordinateM]
  exact hav_comm _ _ _ _

theorem sumPairs_append_single (l : List CoordM) (x : CoordM) :
    sumPairs (l ++ [x]) =
      sumPairs l + (match l.getLast? with | some y => segSpec y x | none => 0) := by
  induction l with
  | nil => simp [sumPairs]
  | cons a t ih =>
    cases t with
    | nil => simp [sumPairs]
    | cons b t2 =>
      simp only [List.cons_append, List.append_eq, sumPairs] at ih ⊢
      rw [ih, List.getLast?_cons_cons]
      ring

theorem sumPairs_reverse (l : List CoordM) : sumPairs l.reverse = sumPairs l := by
  induction l with
  | nil => simp
  | cons a t ih =>
    rw [List.reverse_cons, sumPairs_append_single, ih]
    cases t with
    | nil => simp [sumPairs]
    | cons b t2 =>
      rw [List.getLast?_reverse]
      simp only [List.head?_cons, sumPairs]
      rw [segSpec_comm]
      ring

/-! ## Claim C1 -/

/-- C1: for every coordinate list with at least two elements,
`calculateLength` returns (as the 2-decimal formatted string required by
the function's output contract) the sum over each consecutive pair of
coordinates of the haversine great-circle segment, where a pair with an
endpoint failing coordinate validation contributes exactly zero and
iteration continues with the next pair (`sumPairs`/`segSpec` spell this
out; `hav` is the claimed formula with `R = 6371`). -/
theorem calculateLength_sums_haversine_segments (coords : List CoordM)
    (h : 2 ≤ coords.length) :
    calculateLength coords = JSValue.str (toFixed2Str (sumPairs coords)) := by
  rw [calculateLength, if_neg (by omega), calcVal_eq_sumPairs]

/-- Witness for C1 at the concrete two-point list (0°,0°) – (0°,1°). -/
theorem calculateLength_sums_haversine_segments_witness :
    2 ≤ ([((some 0 : Option ℝ), (some 0 : Option ℝ)),
      ((some 0 : Option ℝ), (some 1 : Option ℝ))] : List CoordM).length ∧
      calculateLength [((some 0 : Option ℝ), (some 0 : Option ℝ)),
        ((some 0 : Option ℝ), (some 1 : Option ℝ))] =
        JSValue.str (toFixed2Str (sumPairs [((some 0 : Option ℝ), (some 0 : Option ℝ)),
          ((some 0 : Option ℝ), (some 1 : Option ℝ))])) :=
  ⟨by simp, calculateLength_sums_haversine_segments _ (by simp)⟩

/-! ## Claim C7 -/

/-- C7: `calculateLength` applied to the reversed coordinate list returns
the same result as on the original list (reversal invariance, from the
symmetry of the guarded haversine segment). -/
theorem calculateLength_reverse (coords : List CoordM) :
    calculateLength coords.reverse = calculateLength coords := by
  rw [calculateLength, calculateLength, List.length_reverse]
  by_cases h : coords.length < 2
  · simp [h]
  · simp [h, calcVal_eq_sumPairs, sumPairs_reverse]

/-! ## Claim C6 -/

/-- C6 counterexample: `calculateLength []` is the JS *number* `0`
(the early `return 0`), not the 2-decimal *string* `"0.00"` the claim
asserts. -/
theorem calculateLength_nil_not_string :
    calculateLength ([] : List CoordM) = JSValue.num 0 ∧
      calculateLength ([] : List CoordM) ≠ JSValue.str "0.00" := by
  refine ⟨rfl, ?_⟩
  intro h
  exact JSValue.noConfusion h

/-- C6 amended: for the empty list and every single-coordinate list (any
list with fewer than two coordinates) `calculateLength` returns the JS
number `0`, unformatted; only lists of two or more coordinates produce a
2-decimal string. -/
theorem calculateLength_short_returns_zero (coords : List CoordM)
    (h : coords.length < 2) : calculateLength coords = JSValue.num 0 := by
  simp [calculateLength, h]

/-- Witness for the amended C6 at the empty list. -/
theorem calculateLength_short_returns_zero_witness :
    ([] : List CoordM).length < 2 ∧ calculateLength ([] : List CoordM) = JSValue.num 0 :=
  ⟨by simp, calculateLength_short_returns_zero [] (by simp)⟩

/-! ## Claim C4 -/

/-- C4: when the XML parser reports an error, the upload handler logs the
error and aborts: the previously held state (elements, summary, toggles)
is returned unchanged — not cleared — and the only effect is the console
log entry.  (Totality of `handleParsedKML` models the absence of an
uncaught throw.) -/
theorem handleParsedKML_error_preserves_state (st : ViewerState) (e : String) :
    (handleParsedKML st (.error e)).1 = st ∧
      (handleParsedKML st (.error e)).2 = ["Error parsing KML: " ++ e] :=
  ⟨rfl, rfl⟩

/-! ## Claim C8 -/

/-- C8: when the fixed path `kml.Document[0].Placemark` is absent from a
successfully parsed document, the placemark list is treated as empty and
processing completes with zero geometry records and all four kind counts
zero. -/
theorem processKMLData_absent_path (r : KMLResult) (h : getPlacemarksOpt r = none) :
    processKMLData (getPlacemarks r) = (⟨0, 0, 0, 0⟩, []) := by
  simp [getPlacemarks, h, processKMLData]

/-- Witness for C8 at the document with no `kml` root. -/
theorem processKMLData_absent_path_witness :
    getPlacemarksOpt ⟨none⟩ = none ∧
      processKMLData (getPlacemarks ⟨none⟩) = (⟨0, 0, 0, 0⟩, []) :=
  ⟨rfl, processKMLData_absent_path ⟨none⟩ rfl⟩

/-! ## Claims C2 and C9 -/

theorem parseTok_eq_specAccept (tok : List Char) : parseTok tok = specAccept tok := by
  unfold parseTok specAccept
  cases h : tok.splitOn ',' with
  | nil => rfl
  | cons lng rest =>
    cases rest with
    | nil => rfl
    | cons lat rest2 =>
      by_cases h1 : lng.isEmpty
      · simp [h1]
      · by_cases h2 : lat.isEmpty
        · simp [h1, h2]
        · by_cases h3 : (parseFloatJS ⟨lat⟩).isNaNb <;>
            by_cases h4 : (parseFloatJS ⟨lng⟩).isNaNb <;>
              simp [h1, h2, h3, h4, isValidCoordinate]

theorem parseCoordinates_eq_filterMap (s : String) :
    parseCoordinates (some s) = (splitWsJS (trimJS s.data)).filterMap parseTok := by
  rw [parseCoordinates]
  by_cases hs : s.data.isEmpty
  · rw [if_pos hs]
    rw [List.isEmpty_iff] at hs
    rw [hs]
    rfl
  · rw [if_neg hs, List.reduceOption, List.filterMap_map]
    rfl

/-- C2, amended: for every coordinate string, the parsed output is exactly
the whitespace-split tokens filtered through `specAccept`: a tuple is
accepted iff its longitude and latitude fields are both non-empty and both
parse to a non-`NaN` number (`Infinity` included — not only *finite*
values, which is where the original claim fails); accepted tuples appear
in input order with the fields swapped to (latitude, longitude), and
rejected tuples never appear. -/
theorem parseCoordinates_accepts_iff_not_nan (s : String) :
    parseCoordinates (some s) = (splitWsJS (trimJS s.data)).filterMap specAccept := by
  rw [parseCoordinates_eq_filterMap]
  rw [funext parseTok_eq_specAccept]

/-- C2 counterexample: the token `Infinity,0` is accepted by
`parseCoordinates` — the tuple appears in the output with longitude
`Infinity` — although its longitude field does not parse as a *finite*
number, refuting the claimed "accepted iff both fields parse as finite
numbers". -/
theorem parseCoordinates_accepts_infinite :
    parseCoordinates (some "Infinity,0") = [(JSNum.num 0, JSNum.inf)] ∧
      (parseFloatJS "Infinity").isFiniteb = false := by
  refine ⟨?_, rfl⟩
  simp [parseCoordinates, parseTok, splitWsJS, wordsWs, wordsWsAux, trimJS,
    isValidCoordinate, JSNum.isNaNb, parseFloatJS, parseSignedJS, parseMantissa,
    takeDigits, intValC, fracValC, parseExpQ, expPow, beginsWith, iswsJS,
    isDigitChar, digitValN, List.splitOn]

theorem parseTok_valid {tok : List Char} {c : Coord2} (h : parseTok tok = some c) :
    isValidCoordinate c = true := by
  rw [parseTok_eq_specAccept] at h
  unfold specAccept at h
  split at h
  · split at h
    · rename_i hcond
      injection h with h'
      subst h'
      simp [isValidCoordinate, hcond.2.2.1, hcond.2.2.2]
    · exact absurd h (by simp)
  · exact absurd h (by simp)

/-- C9: every element of `parseCoordinates`' output satisfies
`isValidCoordinate` — latitude and longitude are both numbers and neither
is `NaN` — so record construction and the length computation never receive
an invalid coordinate from the parser. -/
theorem parseCoordinates_output_valid (s : Option String) (c : Coord2)
    (h : c ∈ parseCoordinates s) : isValidCoordinate c = true := by
  cases s with
  | none => exact absurd h (by simp [parseCoordinates])
  | some s =>
    rw [parseCoordinates_eq_filterMap] at h
    rw [List.mem_filterMap] at h
    obtain ⟨tok, _, htok⟩ := h
    exact parseTok_valid htok

/-- Witness for C9 at the concrete input `"1,2"`. -/
theorem parseCoordinates_output_valid_witness :
    (JSNum.num 2, JSNum.num 1) ∈ parseCoordinates (some "1,2") ∧
      isValidCoordinate (JSNum.num 2, JSNum.num 1) = true := by
  have hm : (JSNum.num 2, JSNum.num 1) ∈ parseCoordinates (some "1,2") := by
    have he : parseCoordinates (some "1,2") = [(JSNum.num 2, JSNum.num 1)] := by
      simp [parseCoordinates, parseTok, splitWsJS, wordsWs, wordsWsAux, trimJS,
        isValidCoordinate, JSNum.isNaNb, parseFloatJS, parseSignedJS, parseMantissa,
        takeDigits, intValC, fracValC, parseExpQ, expPow, beginsWith, iswsJS,
        isDigitChar, digitValN, List.splitOn]
    rw [he]
    simp
  exact ⟨hm, parseCoordinates_output_valid (some "1,2") _ hm⟩

/-! ## Claims C3 and C10 -/

theorem stepPoint_eq (pm : Placemark) (a b d e : ℕ) (els : List GeomRecord) :
    stepPoint pm (⟨a, b, d, e⟩, els) =
      (⟨a + (if tagPoint pm then 1 else 0), b, d, e⟩, els ++ pointRecs pm) := by
  cases h : pm.point with
  | none => simp [stepPoint, h, pointRecs, tagPoint]
  | some inner =>
    simp only [stepPoint, h, pointRecs, tagPoint, Option.isSome_some]
    rfl

theorem stepLine_eq (pm : Placemark) (a b d e : ℕ) (els : List GeomRecord) :
    stepLine pm (⟨a, b, d, e⟩, els) =
      (⟨a, b + (if tagLine pm then 1 else 0), d, e⟩, els ++ lineRecs pm) := by
  cases h : pm.lineString with
  | none => simp [stepLine, h, lineRecs, tagLine]
  | some inner =>
    simp only [stepLine, h, lineRecs, tagLine, Option.isSome_some]
    rfl

theorem stepPoly_eq (pm : Placemark) (a b d e : ℕ) (els : List GeomRecord) :
    stepPoly pm (⟨a, b, d, e⟩, els) =
      (⟨a, b, d + (if tagPoly pm then 1 else 0), e⟩, els ++ polyRecs pm) := by
  cases h : pm.polygon with
  | none => simp [stepPoly, h, polyRecs, tagPoly]
  | some inner =>
    simp only [stepPoly, h, polyRecs, tagPoly, Option.isSome_some]
    rfl

theorem stepMulti_eq (pm : Placemark) (a b d e : ℕ) (els : List GeomRecord) :
    stepMulti pm (⟨a, b, d, e⟩, els) =
      (⟨a, b, d, e + (if tagMulti pm then 1 else 0)⟩, els ++ multiRecs pm) := by
  rcases h : pm.multiGeometry with _ | (_ | lines)
  · simp [stepMulti, h, multiRecs, tagMulti]
  · simp [stepMulti, h, multiRecs, tagMulti]
  · simp only [stepMulti, h, multiRecs, tagMulti]
    rfl

theorem processOne_eq (pm : Placemark) (a b d e : ℕ) (els : List GeomRecord) :
    processOne (⟨a, b, d, e⟩, els) pm =
      (⟨a + (if tagPoint pm then 1 else 0), b + (if tagLine pm then 1 else 0),
        d + (if tagPoly pm then 1 else 0), e + (if tagMulti pm then 1 else 0)⟩,
       els ++ recordsOfSpec pm) := by
  rw [processOne, stepPoint_eq, stepLine_eq, stepPoly_eq, stepMulti_eq,
    recordsOfSpec]
  simp [List.append_assoc]

theorem processKMLData_foldl (pms : List Placemark) (a b d e : ℕ)
    (els : List GeomRecord) :
    pms.foldl processOne (⟨a, b, d, e⟩, els) =
      (⟨a + pms.countP tagPoint, b + pms.countP tagLine, d + pms.countP tagPoly,
        e + pms.countP tagMulti⟩, els ++ pms.flatMap recordsOfSpec) := by
  induction pms generalizing a b d e els with
  | nil => simp
  | cons pm t ih =>
    rw [List.foldl_cons, processOne_eq, ih]
    rw [List.countP_cons, List.countP_cons, List.countP_cons, List.countP_cons,
      List.flatMap_cons, ← List.append_assoc]
    refine congrArg₂ Prod.mk ?_ rfl
    simp only [SummaryCounts.mk.injEq]
    refine ⟨?_, ?_, ?_, ?_⟩ <;> omega

theorem processKMLData_eq (pms : List Placemark) :
    processKMLData pms = (countsOfSpec pms, pms.flatMap recordsOfSpec) := by
  rw [processKMLData, processKMLData_foldl, countsOfSpec]
  simp

/-- C3: processing a placemark list increments each geometry-kind count
exactly when the corresponding tag is present (`countsOfSpec` counts tag
presence, regardless of how many coordinates parse), while record creation
is characterised separately by `recordsOfSpec`: a Point record needs ≥ 1
parsed coordinate, a LineString record ≥ 2, a Polygon record ≥ 3, and a
MultiLineString record ≥ 1 sub-line surviving the ≥ 2-points filter; the
four branches contribute independently (and in source order) for a
placemark carrying several geometry tags. -/
theorem processKMLData_counts_and_gates (pms : List Placemark) :
    processKMLData pms =
      (⟨pms.countP tagPoint, pms.countP tagLine, pms.countP tagPoly,
        pms.countP tagMulti⟩,
       pms.flatMap (fun pm => pointRecs pm ++ lineRecs pm ++ polyRecs pm ++ multiRecs pm)) := by
  rw [processKMLData_eq]
  rfl

theorem pointRecs_length (pm : Placemark) :
    (pointRecs pm).length ≤ if tagPoint pm then 1 else 0 := by
  cases h : pm.point <;> simp [pointRecs, tagPoint, h] <;> split <;> simp

theorem lineRecs_length (pm : Placemark) :
    (lineRecs pm).length ≤ if tagLine pm then 1 else 0 := by
  cases h : pm.lineString <;> simp [lineRecs, tagLine, h] <;> split <;> simp

theorem polyRecs_length (pm : Placemark) :
    (polyRecs pm).length ≤ if tagPoly pm then 1 else 0 := by
  cases h : pm.polygon <;> simp [polyRecs, tagPoly, h] <;> split <;> simp

theorem multiRecs_length (pm : Placemark) :
    (multiRecs pm).length ≤ if tagMulti pm then 1 else 0 := by
  rcases h : pm.multiGeometry with _ | mg1
  · simp [multiRecs, tagMulti, h]
  · cases mg1 <;> simp [multiRecs, tagMulti, h] <;> split <;> simp

theorem pointRecs_kind {pm : Placemark} {r : GeomRecord} (h : r ∈ pointRecs pm) :
    r.kind = GKind.point := by
  unfold pointRecs at h
  split at h <;> simp at h
  obtain ⟨-, rfl⟩ := h
  rfl

theorem lineRecs_kind {pm : Placemark} {r : GeomRecord} (h : r ∈ lineRecs pm) :
    r.kind = GKind.lineString := by
  unfold lineRecs at h
  split at h <;> simp at h
  obtain ⟨-, rfl⟩ := h
  rfl

theorem polyRecs_kind {pm : Placemark} {r : GeomRecord} (h : r ∈ polyRecs pm) :
    r.kind = GKind.polygon := by
  unfold polyRecs at h
  split at h <;> simp at h
  obtain ⟨-, rfl⟩ := h
  rfl

theorem multiRecs_kind {pm : Placemark} {r : GeomRecord} (h : r ∈ multiRecs pm) :
    r.kind = GKind.multiLineString := by
  unfold multiRecs at h
  split at h <;> simp at h
  obtain ⟨-, rfl⟩ := h
  rfl

theorem filter_kind_eq_nil {l : List GeomRecord} {k k' : GKind}
    (hall : ∀ r ∈ l, r.kind = k') (hk : k ≠ k') :
    l.filter (fun r => r.kind = k) = [] := by
  rw [List.filter_eq_nil_iff]
  intro r hr
  simp [hall r hr, Ne.symm hk]

theorem recordsOfSpec_filter_le (pm : Placemark) (k : GKind) :
    ((recordsOfSpec pm).filter (fun r => r.kind = k)).length ≤
      if tagOf k pm then 1 else 0 := by
  have hp2 := pointRecs_length pm
  have hl2 := lineRecs_length pm
  have hg2 := polyRecs_length pm
  have hm2 := multiRecs_length pm
  rw [recordsOfSpec]
  simp only [List.filter_append, List.length_append]
  cases k
  case point =>
    rw [filter_kind_eq_nil (fun r h => lineRecs_kind h) (by simp),
      filter_kind_eq_nil (fun r h => polyRecs_kind h) (by simp),
      filter_kind_eq_nil (fun r h => multiRecs_kind h) (by simp)]
    have := List.length_filter_le (fun r => decide (r.kind = GKind.point)) (pointRecs pm)
    simp only [tagOf, List.length_nil]
    omega
  case lineString =>
    rw [filter_kind_eq_nil (fun r h => pointRecs_kind h) (by simp),
      filter_kind_eq_nil (fun r h => polyRecs_kind h) (by simp),
      filter_kind_eq_nil (fun r h => multiRecs_kind h) (by simp)]
    have := List.length_filter_le (fun r => decide (r.kind = GKind.lineString)) (lineRecs pm)
    simp only [tagOf, List.length_nil]
    omega
  case polygon =>
    rw [filter_kind_eq_nil (fun r h => pointRecs_kind h) (by simp),
      filter_kind_eq_nil (fun r h => lineRecs_kind h) (by simp),
      filter_kind_eq_nil (fun r h => multiRecs_kind h) (by simp)]
    have := List.length_filter_le (fun r => decide (r.kind = GKind.polygon)) (polyRecs pm)
    simp only [tagOf, List.length_nil]
    omega
  case multiLineString =>
    rw [filter_kind_eq_nil (fun r h => pointRecs_kind h) (by simp),
      filter_kind_eq_nil (fun r h => lineRecs_kind h) (by simp),
      filter_kind_eq_nil (fun r h => polyRecs_kind h) (by simp)]
    have := List.length_filter_le (fun r => decide (r.kind = GKind.multiLineString)) (multiRecs pm)
    simp only [tagOf, List.length_nil]
    omega

theorem flatMap_filter_kind_le (pms : List Placemark) (k : GKind) :
    ((pms.flatMap recordsOfSpec).filter (fun r => r.kind = k)).length ≤
      pms.countP (tagOf k) := by
  induction pms with
  | nil => simp
  | cons pm t ih =>
    rw [List.flatMap_cons, List.filter_append, List.length_append, List.countP_cons]
    have h2 := recordsOfSpec_filter_le pm k
    omega

/-- C10: the produced summary carries exactly the four keys Point,
LineString, Polygon, MultiLineString (the fields of `SummaryCounts`), and
for each kind the stored count is at least the number of records of that
kind in the produced record sequence — records are only created in a
branch that also increments that kind's count. -/
theorem counts_dominate_records (pms : List Placemark) (k : GKind) :
    ((processKMLData pms).2.filter (fun r => r.kind = k)).length ≤
      countOf k (processKMLData pms).1 := by
  rw [processKMLData_eq]
  have h := flatMap_filter_kind_le pms k
  cases k <;> simpa [countOf, countsOfSpec, tagOf] using h

/-! ## Claim C5: the parse/format round trip -/

theorem digitChar_isDigit {d : ℕ} (h : d < 10) : isDigitChar (digitChar d) = true := by
  interval_cases d <;> decide

theorem digitVal_digitChar {d : ℕ} (h : d < 10) : digitValN (digitChar d) = d := by
  interval_cases d <;> decide

theorem digit_not_ws {c : Char} (h : isDigitChar c = true) : iswsJS c = false := by
  by_contra hw
  rw [Bool.not_eq_false] at hw
  unfold iswsJS at hw
  simp only [Bool.or_eq_true, decide_eq_true_eq] at hw
  rcases hw with ((((hw | hw) | hw) | hw) | hw) | hw <;> subst hw <;>
    exact absurd h (by decide)

theorem isDigitChar_ne {c : Char} (h : isDigitChar c = true) {d : Char}
    (hd : isDigitChar d = false) : c ≠ d := by
  intro he
  subst he
  rw [h] at hd
  cases hd

theorem natToChars_ne_nil (n : ℕ) : natToChars n ≠ [] := by
  rw [natToChars]
  split <;> simp

theorem natToChars_digits (n : ℕ) : ∀ c ∈ natToChars n, isDigitChar c = true := by
  induction n using Nat.strong_induction_on with
  | _ n ih =>
    rw [natToChars]
    split
    · intro c hc
      rw [List.mem_singleton] at hc
      subst hc
      exact digitChar_isDigit (by omega)
    · intro c hc
      rw [List.mem_append] at hc
      rcases hc with h | h
      · exact ih (n / 10) (Nat.div_lt_self (by omega) (by omega)) c h
      · rw [List.mem_singleton] at h
        subst h
        exact digitChar_isDigit (Nat.mod_lt _ (by omega))

theorem intValC_append (l : List Char) (c : Char) :
    intValC (l ++ [c]) = 10 * intValC l + digitValN c := by
  unfold intValC
  rw [List.foldl_append]
  rfl

theorem intValC_natToChars (n : ℕ) : intValC (natToChars n) = n := by
  induction n using Nat.strong_induction_on with
  | _ n ih =>
    rw [natToChars]
    split
    · rename_i h
      show intValC [digitChar n] = n
      unfold intValC
      simp [List.foldl, digitVal_digitChar h]
    · rename_i h
      rw [intValC_append, ih (n / 10) (Nat.div_lt_self (by omega) (by omega)),
        digitVal_digitChar (Nat.mod_lt _ (by omega))]
      omega

theorem takeDigits_all {l r : List Char} (hl : ∀ c ∈ l, isDigitChar c = true)
    (hr : ∀ c, r.head? = some c → isDigitChar c = false) :
    takeDigits (l ++ r) = (l, r) := by
  induction l with
  | nil =>
    cases r with
    | nil => rfl
    | cons c r2 =>
      have := hr c rfl
      simp [takeDigits, this]
  | cons a l2 ih =>
    have ha := hl a (by simp)
    rw [List.cons_append, takeDigits]
    rw [ih (fun c hc => hl c (by simp [hc]))]
    simp [ha]

theorem pad2_digits {r : ℕ} (h : r < 100) : ∀ c ∈ pad2 r, isDigitChar c = true := by
  intro c hc
  unfold pad2 at hc
  simp only [List.mem_cons, List.not_mem_nil, or_false] at hc
  rcases hc with rfl | rfl
  · exact digitChar_isDigit (by omega)
  · exact digitChar_isDigit (Nat.mod_lt _ (by omega))

theorem fracValC_pad2 {r : ℕ} (h : r < 100) : fracValC (pad2 r) = (r : ℚ) / 100 := by
  unfold fracValC pad2
  have h1 : r / 10 < 10 := by omega
  have h2 : r % 10 < 10 := Nat.mod_lt _ (by omega)
  unfold intValC
  simp only [List.foldl, digitVal_digitChar h1, digitVal_digitChar h2]
  have : (10 * (10 * 0 + r / 10) + r % 10 : ℕ) = r := by omega
  rw [this]
  norm_num

theorem parseFloatJS_fmtFixed2 (m : ℕ) :
    parseFloatJS ⟨fmtFixed2 m⟩ = .num ((m : ℚ) / 100) := by
  obtain ⟨c0, cs0, hc⟩ : ∃ c0 cs0, natToChars (m / 100) = c0 :: cs0 := by
    cases h : natToChars (m / 100) with
    | nil => exact absurd h (natToChars_ne_nil _)
    | cons a b => exact ⟨a, b, rfl⟩
  have hc0 : isDigitChar c0 = true := natToChars_digits (m / 100) c0 (by rw [hc]; simp)
  have hsplit : fmtFixed2 m = c0 :: (cs0 ++ '.' :: pad2 (m % 100)) := by
    rw [fmtFixed2, hc, List.cons_append]
  have htd : takeDigits (natToChars (m / 100) ++ '.' :: pad2 (m % 100)) =
      (natToChars (m / 100), '.' :: pad2 (m % 100)) :=
    takeDigits_all (natToChars_digits _) (by intro c hcc; injection hcc with h'; subst h'; decide)
  have htd2 : takeDigits (pad2 (m % 100)) = (pad2 (m % 100), []) := by
    have := takeDigits_all (l := pad2 (m % 100)) (r := [])
      (pad2_digits (Nat.mod_lt _ (by omega))) (by intro c hcc; cases hcc)
    simpa using this
  have hne : (natToChars (m / 100)).isEmpty = false := by
    simp [List.isEmpty_iff, natToChars_ne_nil]
  have hmant : parseMantissa (fmtFixed2 m) =
      some ((intValC (natToChars (m / 100)) : ℚ) + fracValC (pad2 (m % 100)), []) := by
    unfold parseMantissa
    rw [fmtFixed2, htd]
    simp only [hne, Bool.false_eq_true, if_false, htd2]
    simp
  have hdrop : (fmtFixed2 m).dropWhile iswsJS = fmtFixed2 m := by
    rw [hsplit, List.dropWhile_cons_of_neg (by simp [digit_not_ws hc0])]
  have hnotinf : beginsWith "Infinity".data (fmtFixed2 m) = false := by
    rw [hsplit]
    show beginsWith ('I' :: "nfinity".data) (c0 :: _) = false
    unfold beginsWith
    have : ('I' == c0) = false := by
      rw [beq_eq_false_iff_ne]
      exact (isDigitChar_ne hc0 (by decide)).symm
    simp [this]
  show parseFloatJS ⟨fmtFixed2 m⟩ = _
  unfold parseFloatJS
  simp only [show (⟨fmtFixed2 m⟩ : String).data = fmtFixed2 m from rfl, hdrop]
  rw [hsplit]
  dsimp only
  rw [if_neg (isDigitChar_ne hc0 (show isDigitChar '+' = false by decide)),
    if_neg (isDigitChar_ne hc0 (show isDigitChar '-' = false by decide))]
  rw [← hsplit]
  unfold parseSignedJS
  rw [hnotinf]
  simp only [Bool.false_eq_true, if_false, hmant]
  rw [intValC_natToChars, fracValC_pad2 (Nat.mod_lt _ (by omega))]
  unfold parseExpQ
  rw [mul_one]
  congr 1
  have hmod : (100 : ℚ) * ((m / 100 : ℕ) : ℚ) + ((m % 100 : ℕ) : ℚ) = (m : ℚ) := by
    exact_mod_cast Nat.div_add_mod m 100
  field_simp
  linarith [hmod]

theorem atan2_nonneg {y x : ℝ} (hy : 0 ≤ y) (hx : 0 ≤ x) : 0 ≤ atan2 y x := by
  unfold atan2
  rcases eq_or_lt_of_le hx with hx0 | hxp
  · rw [if_neg (by rw [← hx0]; exact lt_irrefl 0), if_pos hx0.symm]
    rcases eq_or_lt_of_le hy with hy0 | hyp
    · rw [if_neg (by rw [← hy0]; exact lt_irrefl 0), if_neg (by rw [← hy0]; exact lt_irrefl 0)]
    · rw [if_pos hyp]
      positivity
  · rw [if_pos hxp]
    have h0 : (0 : ℝ) ≤ y / x := div_nonneg hy hxp.le
    have := Real.arctan_strictMono.monotone h0
    rwa [Real.arctan_zero] at this

theorem hav_nonneg (a b c d : ℝ) : 0 ≤ hav a b c d := by
  unfold hav
  have h := atan2_nonneg (Real.sqrt_nonneg (havA a b c d)) (Real.sqrt_nonneg (1 - havA a b c d))
  linarith

theorem segLen_nonneg (p q : CoordM) : 0 ≤ segLen p q := by
  rcases p with ⟨p1, p2⟩
  rcases q with ⟨q1, q2⟩
  cases p1 <;> cases p2 <;> cases q1 <;> cases q2 <;> simp [segLen] <;> apply hav_nonneg

theorem lengthLoop_nonneg (p : CoordM) (l : List CoordM) : 0 ≤ lengthLoop p l := by
  induction l generalizing p with
  | nil => simp [lengthLoop]
  | cons c t ih =>
    simp only [lengthLoop]
    exact add_nonneg (segLen_nonneg _ _) (ih c)

theorem calcVal_nonneg (l : List CoordM) : 0 ≤ calcVal l := by
  cases l with
  | nil => simp [calcVal]
  | cons c t =>
    simp only [calcVal]
    exact lengthLoop_nonneg c t

theorem calcVal_short {l : List CoordM} (h : l.length < 2) : calcVal l = 0 := by
  cases l with
  | nil => rfl
  | cons a t =>
    cases t with
    | nil => rfl
    | cons b t2 =>
      exact absurd h (by simp only [List.length_cons]; omega)

theorem round2Z_nonneg {x : ℝ} (hx : 0 ≤ x) : 0 ≤ round2Z x := by
  unfold round2Z
  apply Int.floor_nonneg.mpr
  linarith

theorem round2R_zero : round2R 0 = 0 := by
  unfold round2R round2Z
  rw [show (0 : ℝ) * 100 + 1 / 2 = 1 / 2 by ring]
  have h12 : ⌊(1 / 2 : ℝ)⌋ = 0 := by
    rw [Int.floor_eq_iff]
    constructor <;> norm_num
  rw [h12]
  norm_num

theorem jsParseFloat_toFixed2 {x : ℝ} (hx : 0 ≤ x) :
    jsParseFloat (JSValue.str (toFixed2Str x)) = round2R x := by
  unfold toFixed2Str
  rw [if_neg (not_lt.mpr hx)]
  unfold jsParseFloat
  dsimp only
  rw [parseFloatJS_fmtFixed2]
  dsimp only
  rw [round2R]
  have hz := congrArg (fun t : ℤ => (t : ℝ)) (Int.toNat_of_nonneg (round2Z_nonneg hx))
  push_cast at hz ⊢
  rw [hz]

theorem jsParseFloat_calculateLength (cs : List CoordM) :
    jsParseFloat (calculateLength cs) = round2R (calcVal cs) := by
  by_cases h : cs.length < 2
  · rw [calculateLength, if_pos h, calcVal_short h, round2R_zero]
    rfl
  · rw [calculateLength, if_neg h]
    exact jsParseFloat_toFixed2 (calcVal_nonneg cs)

theorem foldl_add_parseFloat (l : List (List CoordM)) (a : ℝ) :
    l.foldl (fun acc cs => acc + jsParseFloat (calculateLength cs)) a =
      a + (l.map (fun cs => round2R (calcVal cs))).sum := by
  induction l generalizing a with
  | nil => simp
  | cons c t ih =>
    rw [List.foldl_cons, ih, List.map_cons, List.sum_cons, jsParseFloat_calculateLength]
    ring

/-- C5, amended: the code's MultiLineString combination — format each
sub-line's length with `toFixed(2)`, parse the strings back with
`parseFloat`, sum, and format the sum — is observably equivalent to a
variant that retains the *rounded* numeric sub-totals (each sub-line's
length rounded to 2 decimals as a number, with no string round-trip) and
formats only the final sum.  It is *not* equivalent to keeping exact
sub-totals and rounding once at the end (see the counterexample). -/
theorem multiLineLength_eq_rounded_subtotals (mcs : List (List CoordM)) :
    multiLineLengthStr mcs = multiLineLengthRounded mcs := by
  unfold multiLineLengthStr multiLineLengthRounded multiTotal
  rw [foldl_add_parseFloat]
  norm_num

/-! ### C5 counterexample: two antipodal sub-lines -/

theorem havA_antipodal : havA 0 0 0 180 = 1 := by
  unfold havA
  have e1 : ((0 : ℝ) - 0) * Real.pi / 180 / 2 = 0 := by ring
  have e2 : ((180 : ℝ) - 0) * Real.pi / 180 / 2 = Real.pi / 2 := by ring
  have e3 : (0 : ℝ) * Real.pi / 180 = 0 := by ring
  rw [e1, e2, e3, Real.sin_zero, Real.cos_zero, Real.sin_pi_div_two]
  ring

theorem hav_antipodal : hav 0 0 0 180 = 6371 * Real.pi := by
  unfold hav
  rw [havA_antipodal, show (1 : ℝ) - 1 = 0 by ring, Real.sqrt_zero, Real.sqrt_one]
  unfold atan2
  rw [if_neg (lt_irrefl 0), if_pos rfl, if_pos one_pos]
  ring

theorem calcVal_cexLine : calcVal cexLine = 6371 * Real.pi := by
  unfold cexLine
  simp only [calcVal, lengthLoop, segLen]
  rw [hav_antipodal]
  ring

theorem round2Z_6371pi : round2Z (6371 * Real.pi) = 2001509 := by
  unfold round2Z
  rw [Int.floor_eq_iff]
  have h1 := Real.pi_gt_d20
  have h2 := Real.pi_lt_d20
  constructor
  · push_cast
    nlinarith
  · push_cast
    nlinarith

theorem round2Z_12742pi : round2Z (12742 * Real.pi) = 4003017 := by
  unfold round2Z
  rw [Int.floor_eq_iff]
  have h1 := Real.pi_gt_d20
  have h2 := Real.pi_lt_d20
  constructor
  · push_cast
    nlinarith
  · push_cast
    nlinarith

theorem fmtFixed2_2001509 : fmtFixed2 2001509 = "20015.09".data := by
  simp only [fmtFixed2, pad2]
  norm_num
  simp [natToChars, digitChar]

theorem fmtFixed2_4003018 : fmtFixed2 4003018 = "40030.18".data := by
  simp only [fmtFixed2, pad2]
  norm_num
  simp [natToChars, digitChar]

theorem fmtFixed2_4003017 : fmtFixed2 4003017 = "40030.17".data := by
  simp only [fmtFixed2, pad2]
  norm_num
  simp [natToChars, digitChar]

theorem toFixed2Str_6371pi : toFixed2Str (6371 * Real.pi) = "20015.09" := by
  unfold toFixed2Str
  rw [if_neg (not_lt.mpr (by positivity)), round2Z_6371pi,
    show ((2001509 : ℤ)).toNat = 2001509 from rfl, fmtFixed2_2001509]

theorem calculateLength_cexLine : calculateLength cexLine = JSValue.str "20015.09" := by
  rw [calculateLength, if_neg (by simp [cexLine]), calcVal_cexLine, toFixed2Str_6371pi]

theorem parseFloatJS_2001509 : parseFloatJS "20015.09" = JSNum.num (2001509 / 100) := by
  have h := parseFloatJS_fmtFixed2 2001509
  rw [fmtFixed2_2001509] at h
  convert h using 2

theorem jsParseFloat_2001509 :
    jsParseFloat (JSValue.str "20015.09") = (2001509 : ℝ) / 100 := by
  unfold jsParseFloat
  dsimp only
  rw [parseFloatJS_2001509]
  dsimp only
  push_cast
  norm_num

theorem multiLineLengthStr_cex :
    multiLineLengthStr [cexLine, cexLine] = "40030.18" := by
  unfold multiLineLengthStr multiTotal
  rw [List.foldl_cons, List.foldl_cons, List.foldl_nil, calculateLength_cexLine,
    jsParseFloat_2001509]
  rw [show (0 : ℝ) + 2001509 / 100 + 2001509 / 100 = 4003018 / 100 by ring]
  unfold toFixed2Str
  rw [if_neg (not_lt.mpr (by norm_num))]
  have hz : round2Z ((4003018 : ℝ) / 100) = 4003018 := by
    unfold round2Z
    rw [Int.floor_eq_iff]
    constructor <;> push_cast <;> norm_num
  rw [hz, show ((4003018 : ℤ)).toNat = 4003018 from rfl, fmtFixed2_4003018]

theorem multiLineLengthExact_cex :
    multiLineLengthExact [cexLine, cexLine] = "40030.17" := by
  unfold multiLineLengthExact
  rw [List.map_cons, List.map_cons, List.map_nil, List.sum_cons, List.sum_cons,
    List.sum_nil, calcVal_cexLine]
  rw [show 6371 * Real.pi + (6371 * Real.pi + 0) = 12742 * Real.pi by ring]
  unfold toFixed2Str
  rw [if_neg (not_lt.mpr (by positivity)), round2Z_12742pi,
    show ((4003017 : ℤ)).toNat = 4003017 from rfl, fmtFixed2_4003017]

/-- C5 counterexample: for the MultiLineString whose two sub-lines are each
the antipodal pair (0°,0°)–(0°,180°) (both with ≥ 2 points, so both survive
the record filter), the code's string-round-trip combination yields
`"40030.18"` while the claimed equivalent — exact sub-totals rounded only
after summation — yields `"40030.17"`: rounding each sub-line to 2 decimals
before summing is observable. -/
theorem multiLineLength_string_roundtrip_observable :
    2 ≤ cexLine.length ∧
      multiLineLengthStr [cexLine, cexLine] ≠ multiLineLengthExact [cexLine, cexLine] := by
  constructor
  · simp [cexLine]
  · rw [multiLineLengthStr_cex, multiLineLengthExact_cex]
    decide

end KML
